import Mathlib

/-!
Verification of the RRD time-range query engine of the jarmon repository.

The definitions below are a shallow embedding of
`jarmon.RrdQuery.prototype.getData` (src/jarmon/jarmon.js, lines 145-257),
of the archive-selection loop it contains, and of the download-coalescing
state of `jarmon.RrdQueryRemote` (lines 282-345) together with the older
`jrrd.RrdQueryRemote` (src/jrrd.js, lines 174-229).

Modelling conventions:
* JavaScript numbers are modelled as rationals (`ℚ`); all time arithmetic in
  the source is exact on the inputs we consider, so no floating-point rounding
  is modelled.
* The JavaScript remainder operator `%` truncates toward zero; it is modelled
  by `jsMod` below, built on `jsTrunc`.
* `undefined`/`null`/numeric end-time arguments are distinguished by `JsTime`,
  because the source compares `startTimeJs >= endTimeJs` before any
  defaulting, and `>=` treats `undefined` (always false) differently from
  `null` (compares as 0) and from `0`.
* Cell values returned by `RRA.getEl` are modelled as `Option ℤ`: `none` is
  the "no data" (NaN/undefined) sentinel, `some v` a numeric sample.
* Thrown exceptions are modelled by `Except JsError`.
* The external javascriptrrd accessors (`getDS`, `getRRA`, `getLastUpdate`,
  `getMinStep`, `getCFName`, `getStep`, `getNrRows`, `getIdx`, `getEl`) are
  modelled as record fields / list lookups; `step` and `minStep` are positive
  integers and `rowCount` an integer, as the spec's data model states.
-/

namespace Jarmon

/-- JavaScript truncation toward zero of a rational number
(the rounding used by the JS `%` operator). -/
def jsTrunc (x : ℚ) : ℤ := if 0 ≤ x then ⌊x⌋ else ⌈x⌉

/-- The JavaScript remainder operator `x % y` (sign of the dividend,
truncated division).  For the positive integral divisors appearing in the
source this is exactly `x - y * trunc (x / y)`. -/
def jsMod (x y : ℚ) : ℚ := x - y * (jsTrunc (x / y) : ℚ)

/-- An RRD data source (DS): a named numeric channel with its index. -/
structure DS where
  name : String
  idx : ℤ
deriving DecidableEq

/-- An RRD archive (RRA): consolidation function name, step (positive integer
seconds), row count, and the cell accessor `getEl (rowIndex, dsIndex)`.
`none` models the NaN / undefined "no data" cell. -/
structure RRA where
  cfName : String
  step : ℤ
  stepPos : 0 < step
  rowCount : ℤ
  getEl : ℚ → ℤ → Option ℤ

/-- A parsed RRD file as consumed by `jarmon.RrdQuery`. -/
structure RrdFile where
  lastUpdate : ℤ
  minStep : ℤ
  minStepPos : 0 < minStep
  rras : List RRA
  dss : List DS

/-- A data-source identifier argument: a name (string) or an index (number). -/
inductive DsId where
  | byName (s : String)
  | byIndex (n : ℤ)
deriving DecidableEq

/-- The javascriptrrd `getDS` lookup: by name or by index.  An unknown
identifier yields `none` (the library throws). -/
def RrdFile.getDS (f : RrdFile) : DsId → Option DS
  | .byName s => f.dss.find? (fun d => d.name == s)
  | .byIndex n => f.dss.find? (fun d => d.idx == n)

/-- The JavaScript value passed as `endTimeJs`: `undefined` (omitted),
`null`, or a number. -/
inductive JsTime where
  | undef
  | null
  | num (q : ℚ)
deriving DecidableEq

/-- The source's initial test `startTimeJs >= endTimeJs`:
`undefined` compares as NaN (always false), `null` compares as 0. -/
def JsTime.geCheck (startTimeJs : ℚ) : JsTime → Bool
  | .undef => false
  | .null => decide (0 ≤ startTimeJs)
  | .num e => decide (e ≤ startTimeJs)

/-- JavaScript truthiness of the `endTimeJs` argument, as tested by
`if(endTimeJs)`: `undefined`, `null` and `0` are falsy. -/
def JsTime.truthy : JsTime → Bool
  | .num e => decide (e ≠ 0)
  | _ => false

/-- `endTimeJs / 1000`, used only when `endTimeJs` is truthy. -/
def JsTime.toSeconds : JsTime → ℚ
  | .num e => e / 1000
  | _ => 0

/-- The errors `getData` can raise. -/
inductive JsError where
  | rangeError (startTimeJs : ℚ) (endTimeJs : JsTime)
  | dsNotFound (dsId : DsId)
  | cfTypeError (cfName : String)
deriving DecidableEq

/-- The Flot-compatible record returned by `getData`. -/
structure FlotResult where
  label : String
  data : List (ℚ × Option ℤ)
  unit : String
  firstUpdated : ℚ
  lastUpdated : ℚ
deriving DecidableEq

/-- `jarmon.RrdQuery`: a parsed RRD file together with a display unit. -/
structure RrdQuery where
  rrd : RrdFile
  unit : String

/-- The per-archive quantities computed inside the selection loop of
`getData` (source lines 198-201): `step`, `rraRowCount`, `lastRowTime`,
`firstRowTime`. -/
structure SelVals where
  step : ℤ
  rowCount : ℤ
  lastRowTime : ℚ
  firstRowTime : ℚ
deriving DecidableEq

/-- Lines 198-201 of jarmon.js, for one archive:
`lastRowTime = lastUpdated - lastUpdated % step`,
`firstRowTime = lastRowTime - rowCount * step`. -/
def rraVals (lastUpdated : ℚ) (a : RRA) : SelVals :=
  { step := a.step
    rowCount := a.rowCount
    lastRowTime := lastUpdated - jsMod lastUpdated (a.step : ℚ)
    firstRowTime :=
      (lastUpdated - jsMod lastUpdated (a.step : ℚ)) - (a.rowCount : ℚ) * (a.step : ℚ) }

/-- The archive-selection loop of `getData` (source lines 186-209).
The accumulators mirror the loop variables: `rra` is reassigned on every
iteration (line 191, before the consolidation-function test), while the
`SelVals` are updated only for archives whose consolidation function
matches (lines 198-201).  The loop breaks at the first matching archive
whose `firstRowTime` is at or before the requested start time. -/
def selectRRA (cf : String) (lastUpdated startTime : ℚ) :
    List RRA → Option RRA → Option SelVals → Option RRA × Option SelVals
  | [], rra, vals => (rra, vals)
  | a :: rest, _, vals =>
    if a.cfName = cf then
      if (rraVals lastUpdated a).firstRowTime ≤ startTime then
        (some a, some (rraVals lastUpdated a))
      else
        selectRRA cf lastUpdated startTime rest (some a) (some (rraVals lastUpdated a))
    else
      selectRRA cf lastUpdated startTime rest (some a) vals

/-- The effective end time in seconds (source lines 171-175): the default is
`lastUpdate - lastUpdate % minStep`, overridden by `endTimeJs / 1000` when
`endTimeJs` is truthy. -/
def effEndTime (f : RrdFile) (endTimeJs : JsTime) : ℚ :=
  if endTimeJs.truthy then endTimeJs.toSeconds
  else (f.lastUpdate : ℚ) - jsMod (f.lastUpdate : ℚ) (f.minStep : ℚ)

/-- Source line 220: `endRowTime = min(lastRowTime, endTime - endTime % step)`. -/
def endRowTimeOf (v : SelVals) (endTime : ℚ) : ℚ :=
  min v.lastRowTime (endTime - jsMod endTime (v.step : ℚ))

/-- Source lines 219 and 224:
`startRowTime = max(firstRowTime, startTime - startTime % step)` clamped to
`min(startRowTime, endRowTime)`. -/
def startRowTimeOf (v : SelVals) (startTime endTime : ℚ) : ℚ :=
  min (max v.firstRowTime (startTime - jsMod startTime (v.step : ℚ)))
      (endRowTimeOf v endTime)

/-- Source line 235: `startRowIndex = rowCount - (lastRowTime - startRowTime) / step`. -/
def startRowIndexOf (v : SelVals) (startTime endTime : ℚ) : ℚ :=
  (v.rowCount : ℚ) - (v.lastRowTime - startRowTimeOf v startTime endTime) / (v.step : ℚ)

/-- Source line 236: `endRowIndex = rowCount - (lastRowTime - endRowTime) / step`. -/
def endRowIndexOf (v : SelVals) (endTime : ℚ) : ℚ :=
  (v.rowCount : ℚ) - (v.lastRowTime - endRowTimeOf v endTime) / (v.step : ℚ)

/-- The number of iterations of the sampling loop (source line 243):
`for(var i = startRowIndex; i < endRowIndex; i++)`. -/
def sampleCount (v : SelVals) (startTime endTime : ℚ) : ℕ :=
  (⌈endRowIndexOf v endTime - startRowIndexOf v startTime endTime⌉ : ℤ).toNat

/-- The sampling loop of `getData` (source lines 241-247): the k-th iteration
pushes `[timestamp * 1000, rra.getEl(startRowIndex + k, dsIndex)]` where
`timestamp = startRowTime + k * step`. -/
def buildSeries (rra : RRA) (v : SelVals) (dsIndex : ℤ) (startTime endTime : ℚ) :
    List (ℚ × Option ℤ) :=
  (List.range (sampleCount v startTime endTime)).map
    (fun (k : ℕ) =>
      ((startRowTimeOf v startTime endTime + (k : ℚ) * (v.step : ℚ)) * 1000,
       rra.getEl (startRowIndexOf v startTime endTime + (k : ℚ)) dsIndex))

/-- `jarmon.RrdQuery.prototype.getData` (source lines 145-257).

Control flow, in source order: the raw-argument range check (line 161);
millisecond-to-second conversion and end-time defaulting (lines 168-175);
data-source resolution (lines 177-180); consolidation-function defaulting
(lines 182-184); the archive-selection loop (lines 186-209) and the
`if(!step)` test (lines 212-214, which also fires when the selected step is
0, since `!0` is true in JavaScript); the aligned row window and sampling
loop (lines 216-247); and the result record whose coverage bounds come from
the last archive in the file (lines 249-256). -/
def RrdQuery.getData (q : RrdQuery) (startTimeJs : ℚ) (endTimeJs : JsTime)
    (dsId : Option DsId) (cfName : Option String) : Except JsError FlotResult :=
  if endTimeJs.geCheck startTimeJs then
    .error (.rangeError startTimeJs endTimeJs)
  else
    match q.rrd.getDS (dsId.getD (.byIndex 0)) with
    | none => .error (.dsNotFound (dsId.getD (.byIndex 0)))
    | some ds =>
      match selectRRA (cfName.getD "AVERAGE") (q.rrd.lastUpdate : ℚ)
          (startTimeJs / 1000) q.rrd.rras none none with
      | (some rra, some v) =>
        if v.step = 0 then .error (.cfTypeError (cfName.getD "AVERAGE"))
        else
          match q.rrd.rras.getLast? with
          | some lastRra =>
            .ok { label := ds.name
                  data := buildSeries rra v ds.idx (startTimeJs / 1000)
                    (effEndTime q.rrd endTimeJs)
                  unit := q.unit
                  firstUpdated :=
                    ((q.rrd.lastUpdate : ℚ) -
                      ((lastRra.rowCount : ℚ) - 1) * (lastRra.step : ℚ)) * 1000
                  lastUpdated := (q.rrd.lastUpdate : ℚ) * 1000 }
          | none => .error (.cfTypeError (cfName.getD "AVERAGE"))
      | (_, _) => .error (.cfTypeError (cfName.getD "AVERAGE"))

/-! ### Derived definitions used by the verification -/

/-- `x` is an integer multiple of `s`. -/
def IsIntMul (s x : ℚ) : Prop := ∃ m : ℤ, x = s * m

/-- The value held by the module-global variable `firstUpdated` after a call
to `getData`.  Source line 252 assigns `firstUpdated` without a `var`
declaration (and jarmon.js is not in strict mode), so every successful call
writes the file-level first-updated time, in seconds, into the global scope;
a call that throws leaves the global untouched.  The successful result's
`firstUpdated` field is exactly this value times 1000 (line 255). -/
def getDataGlobalFirstUpdated (q : RrdQuery) (startTimeJs : ℚ) (endTimeJs : JsTime)
    (dsId : Option DsId) (cfName : Option String) (g : Option ℚ) : Option ℚ :=
  match q.getData startTimeJs endTimeJs dsId cfName with
  | .error _ => g
  | .ok r => some (r.firstUpdated / 1000)

/-! ### Download state of the remote query wrappers

`jarmon.RrdQueryRemote` (src/jarmon/jarmon.js lines 282-345) keeps
`this.lastUpdate` (0 until a download completes), `this._download` (null or
the in-flight/completed download deferred), and implicitly the set of
downloads ever started.  Download identities are modelled by a counter:
`started` counts the downloads begun so far, and `download` holds the id of
the deferred the instance currently points at. -/

/-- Observable download state of a `jarmon.RrdQueryRemote` instance. -/
structure RemoteState where
  lastUpdate : ℚ
  download : Option ℕ
  started : ℕ
deriving DecidableEq

/-- The `jarmon.RrdQueryRemote` constructor (lines 282-288):
`lastUpdate = 0`, `_download = null`, no download started yet. -/
def initRemote : RemoteState := ⟨0, none, 0⟩

/-- `RrdQueryRemote._callRemote` (lines 291-305): a new download starts
if and only if `this._download` is null. -/
def callRemote (s : RemoteState) : RemoteState :=
  match s.download with
  | some _ => s
  | none => ⟨s.lastUpdate, some s.started, s.started + 1⟩

/-- `jarmon.RrdQueryRemote.getData` (lines 331-345): first
`if(this.lastUpdate < endTime/1000) this._download = null;` then
`_callRemote`. -/
def remoteGetData (s : RemoteState) (endTime : ℚ) : RemoteState :=
  callRemote (if s.lastUpdate < endTime / 1000 then ⟨s.lastUpdate, none, s.started⟩ else s)

/-- Completion of a download (the `addCallback` of lines 296-304): the
parsed file's last update is recorded; the deferred stays in `_download`. -/
def completeDownload (s : RemoteState) (rrdLastUpdate : ℚ) : RemoteState :=
  ⟨rrdLastUpdate, s.download, s.started⟩

/-- Observable download state of the older `jrrd.RrdQueryRemote`
(src/jrrd.js lines 174-229): the deferred additionally exposes `fired`
(whether its callbacks have run, i.e. the download completed). -/
structure JrrdState where
  lastUpdate : ℚ
  download : Option (ℕ × Bool)
  started : ℕ
deriving DecidableEq

/-- `jrrd.RrdQueryRemote.getData` (lines 181-207): a new download starts iff
`!this._download || (this._download.fired > -1 && this.lastUpdate < endTimestamp)`. -/
def jrrdRemoteGetData (s : JrrdState) (endTime : ℚ) : JrrdState :=
  match s.download with
  | none => ⟨s.lastUpdate, some (s.started, false), s.started + 1⟩
  | some d =>
    if d.2 = true ∧ s.lastUpdate < endTime / 1000 then
      ⟨s.lastUpdate, some (s.started, false), s.started + 1⟩
    else s

/-! ### Concrete fixtures

Small RRD files used to instantiate the theorems below on concrete inputs. -/

/-- A short AVERAGE archive (step 10 s, one row) that retains too little
history to cover most start times. -/
def arcShort : RRA := ⟨"AVERAGE", 10, by norm_num, 1, fun _ _ => some 1⟩

/-- A MAX archive (step 20 s, five rows) whose cells hold the value 2. -/
def arcMax : RRA := ⟨"MAX", 20, by norm_num, 5, fun _ _ => some 2⟩

/-- An AVERAGE archive with 100 rows of step 10 s, covering times 0..1000 s. -/
def arcMain : RRA := ⟨"AVERAGE", 10, by norm_num, 100, fun _ _ => some 7⟩

/-- A file with a single AVERAGE archive, last updated at 1000 s. -/
def mainFile : RrdFile := ⟨1000, 10, by norm_num, [arcMain], [⟨"ds0", 0⟩]⟩

/-- A query over `mainFile`. -/
def mainQuery : RrdQuery := ⟨mainFile, ""⟩

/-- A file whose only AVERAGE archive is too short, and whose last archive
uses MAX: archive selection for AVERAGE must take the fallback path. -/
def fallbackFile : RrdFile := ⟨1000, 10, by norm_num, [arcShort, arcMax], [⟨"ds0", 0⟩]⟩

/-- A query over `fallbackFile`. -/
def fallbackQuery : RrdQuery := ⟨fallbackFile, ""⟩

/-! ### Characterization of the archive-selection loop -/

/-- The values accumulated by the selection loop are either untouched or come
from some archive of the list whose consolidation function matches. -/
theorem selectRRA_vals_shape (cf : String) (lu st : ℚ) :
    ∀ (l : List RRA) (r0 : Option RRA) (v0 : Option SelVals),
      (selectRRA cf lu st l r0 v0).2 = v0 ∨
      ∃ a ∈ l, a.cfName = cf ∧ (selectRRA cf lu st l r0 v0).2 = some (rraVals lu a)
  | [], _, _ => Or.inl rfl
  | a :: rest, r0, v0 => by
    by_cases hcf : a.cfName = cf
    · by_cases hcov : (rraVals lu a).firstRowTime ≤ st
      · right
        exact ⟨a, by simp, hcf, by simp [selectRRA, hcf, hcov]⟩
      · have ih := selectRRA_vals_shape cf lu st rest (some a) (some (rraVals lu a))
        simp only [selectRRA, if_pos hcf, if_neg hcov]
        rcases ih with h | ⟨b, hb, hbcf, hb2⟩
        · exact Or.inr ⟨a, by simp, hcf, h⟩
        · exact Or.inr ⟨b, by simp [hb], hbcf, hb2⟩
    · have ih := selectRRA_vals_shape cf lu st rest (some a) v0
      simp only [selectRRA, if_neg hcf]
      rcases ih with h | ⟨b, hb, hbcf, hb2⟩
      · exact Or.inl h
      · exact Or.inr ⟨b, by simp [hb], hbcf, hb2⟩

/-- Once the loop's values have been set they stay set. -/
theorem selectRRA_vals_isSome_of_some (cf : String) (lu st : ℚ)
    (l : List RRA) (r0 : Option RRA) (v : SelVals) :
    ((selectRRA cf lu st l r0 (some v)).2).isSome := by
  rcases selectRRA_vals_shape cf lu st l r0 (some v) with h | ⟨a, _, _, h⟩ <;> simp [h]

/-- If some archive of the list matches the consolidation function, the loop
ends with its values set. -/
theorem selectRRA_vals_isSome_of_match (cf : String) (lu st : ℚ) :
    ∀ (l : List RRA) (r0 : Option RRA) (v0 : Option SelVals),
      (∃ a ∈ l, a.cfName = cf) → ((selectRRA cf lu st l r0 v0).2).isSome
  | [], _, _, h => by simp at h
  | a :: rest, r0, v0, h => by
    by_cases hcf : a.cfName = cf
    · by_cases hcov : (rraVals lu a).firstRowTime ≤ st
      · simp [selectRRA, hcf, hcov]
      · simp only [selectRRA, if_pos hcf, if_neg hcov]
        exact selectRRA_vals_isSome_of_some cf lu st rest (some a) (rraVals lu a)
    · simp only [selectRRA, if_neg hcf]
      rcases h with ⟨b, hb, hbcf⟩
      rcases List.mem_cons.mp hb with rfl | hb2
      · exact absurd hbcf hcf
      · exact selectRRA_vals_isSome_of_match cf lu st rest (some a) v0 ⟨b, hb2, hbcf⟩

/-- The loop's archive variable can end up unset only if the list was empty. -/
theorem selectRRA_fst_none (cf : String) (lu st : ℚ) :
    ∀ (l : List RRA) (r0 : Option RRA) (v0 : Option SelVals),
      (selectRRA cf lu st l r0 v0).1 = none → l = [] ∧ r0 = none
  | [], _, _, h => ⟨rfl, h⟩
  | a :: rest, r0, v0, h => by
    by_cases hcf : a.cfName = cf
    · by_cases hcov : (rraVals lu a).firstRowTime ≤ st
      · simp [selectRRA, hcf, hcov] at h
      · simp only [selectRRA, if_pos hcf, if_neg hcov] at h
        exact absurd (selectRRA_fst_none cf lu st rest (some a) _ h).2 (by simp)
    · simp only [selectRRA, if_neg hcf] at h
      exact absurd (selectRRA_fst_none cf lu st rest (some a) _ h).2 (by simp)

/-- The loop breaks at the first archive that both matches the consolidation
function and covers the start time, returning that archive and its values. -/
theorem selectRRA_find (cf : String) (lu st : ℚ) :
    ∀ (l : List RRA) (r0 : Option RRA) (v0 : Option SelVals) (a₀ : RRA),
      l.find? (fun a => a.cfName == cf && decide ((rraVals lu a).firstRowTime ≤ st)) = some a₀ →
      selectRRA cf lu st l r0 v0 = (some a₀, some (rraVals lu a₀))
  | [], _, _, _, h => by simp at h
  | a :: rest, r0, v0, a₀, h => by
    rcases List.find?_cons_eq_some.mp h with ⟨hp, rfl⟩ | ⟨hnp, hrest⟩
    · obtain ⟨hcf, hcov⟩ := Bool.and_eq_true_iff.mp hp
      simp [selectRRA, beq_iff_eq.mp hcf, of_decide_eq_true hcov]
    · by_cases hcf : a.cfName = cf
      · have hcov : ¬(rraVals lu a).firstRowTime ≤ st := by
          simp only [hcf, Bool.not_eq_true', Bool.and_eq_false_iff, beq_self_eq_true,
            decide_eq_false_iff_not] at hnp
          tauto
        simp only [selectRRA, if_pos hcf, if_neg hcov]
        exact selectRRA_find cf lu st rest (some a) _ a₀ hrest
      · simp only [selectRRA, if_neg hcf]
        exact selectRRA_find cf lu st rest (some a) v0 a₀ hrest

/-- Option.elim applied to `getLast?` of a cons cell: the head only matters
when the tail is empty. -/
theorem getLast?_elim_cons {α β : Type} (x : α) (l : List α) (d : β) (f : α → β) :
    ((x :: l).getLast?).elim d f = (l.getLast?).elim (f x) f := by
  cases l with
  | nil => rfl
  | cons y t =>
    rw [List.getLast?_cons_cons]
    cases h : (y :: t).getLast? with
    | none => simp at h
    | some z => rfl

/-- When no matching archive covers the start time, the loop runs to the end:
the final values are those of the last matching archive (if any), while the
archive variable holds the last archive of the list regardless of its
consolidation function. -/
theorem selectRRA_fallback (cf : String) (lu st : ℚ) :
    ∀ (l : List RRA) (r0 : Option RRA) (v0 : Option SelVals),
      (∀ a ∈ l, a.cfName = cf → ¬(rraVals lu a).firstRowTime ≤ st) →
      selectRRA cf lu st l r0 v0 =
        ((l.getLast?).elim r0 some,
         ((l.filter (fun a => a.cfName == cf)).getLast?).elim v0
           (fun a => some (rraVals lu a)))
  | [], _, _, _ => rfl
  | a :: rest, r0, v0, h => by
    have ha := h a (by simp)
    have hrest : ∀ b ∈ rest, b.cfName = cf → ¬(rraVals lu b).firstRowTime ≤ st :=
      fun b hb => h b (by simp [hb])
    by_cases hcf : a.cfName = cf
    · have hcov := ha hcf
      simp only [selectRRA, if_pos hcf, if_neg hcov]
      rw [selectRRA_fallback cf lu st rest (some a) (some (rraVals lu a)) hrest]
      rw [List.filter_cons_of_pos (by simp [hcf])]
      rw [getLast?_elim_cons a rest r0 some,
          getLast?_elim_cons a (rest.filter (fun b => b.cfName == cf)) v0
            (fun b => some (rraVals lu b))]
    · simp only [selectRRA, if_neg hcf]
      rw [selectRRA_fallback cf lu st rest (some a) v0 hrest]
      rw [List.filter_cons_of_neg (by simp [hcf])]
      rw [getLast?_elim_cons a rest r0 some]

/-! ### Step-alignment arithmetic -/

/-- JavaScript alignment `x - x % s` is always an integer multiple of `s`. -/
theorem isIntMul_align (s x : ℚ) : IsIntMul s (x - jsMod x s) :=
  ⟨jsTrunc (x / s), by unfold jsMod; ring⟩

/-- Differences of multiples of `s` are multiples of `s`. -/
theorem IsIntMul.sub {s x y : ℚ} : IsIntMul s x → IsIntMul s y → IsIntMul s (x - y)
  | ⟨m, hm⟩, ⟨n, hn⟩ => ⟨m - n, by rw [hm, hn]; push_cast; ring⟩

/-- The maximum of two multiples of a nonnegative `s` is a multiple of `s`. -/
theorem IsIntMul.max {s x y : ℚ} (hs : 0 ≤ s) :
    IsIntMul s x → IsIntMul s y → IsIntMul s (max x y)
  | ⟨m, hm⟩, ⟨n, hn⟩ => by
    refine ⟨Max.max m n, ?_⟩
    rw [hm, hn]
    rcases le_total m n with h | h
    · rw [max_eq_right (mul_le_mul_of_nonneg_left (Int.cast_le.mpr h) hs),
        max_eq_right h]
    · rw [max_eq_left (mul_le_mul_of_nonneg_left (Int.cast_le.mpr h) hs),
        max_eq_left h]

/-- The minimum of two multiples of a nonnegative `s` is a multiple of `s`. -/
theorem IsIntMul.min {s x y : ℚ} (hs : 0 ≤ s) :
    IsIntMul s x → IsIntMul s y → IsIntMul s (min x y)
  | ⟨m, hm⟩, ⟨n, hn⟩ => by
    refine ⟨Min.min m n, ?_⟩
    rw [hm, hn]
    rcases le_total m n with h | h
    · rw [min_eq_left (mul_le_mul_of_nonneg_left (Int.cast_le.mpr h) hs),
        min_eq_left h]
    · rw [min_eq_right (mul_le_mul_of_nonneg_left (Int.cast_le.mpr h) hs),
        min_eq_right h]

/-- Dividing a multiple of `s` by a nonzero `s` yields an integer. -/
theorem IsIntMul.div_int {s x : ℚ} (hs : s ≠ 0) : IsIntMul s x → ∃ m : ℤ, x / s = m
  | ⟨m, hm⟩ => ⟨m, by rw [hm, mul_comm, mul_div_assoc, div_self hs, mul_one]⟩

/-- The loop values of an archive are aligned: both row times are integer
multiples of the archive's step. -/
theorem rraVals_aligned (lu : ℚ) (a : RRA) :
    IsIntMul ((a.step : ℤ) : ℚ) (rraVals lu a).lastRowTime ∧
    IsIntMul ((a.step : ℤ) : ℚ) (rraVals lu a).firstRowTime := by
  constructor
  · exact isIntMul_align _ lu
  · exact (isIntMul_align _ lu).sub ⟨a.rowCount, by ring⟩

/-- The aligned end row time is a multiple of the step. -/
theorem endRowTimeOf_isIntMul (v : SelVals) (et : ℚ) (hs : 0 ≤ ((v.step : ℤ) : ℚ))
    (hlast : IsIntMul ((v.step : ℤ) : ℚ) v.lastRowTime) :
    IsIntMul ((v.step : ℤ) : ℚ) (endRowTimeOf v et) :=
  IsIntMul.min hs hlast (isIntMul_align _ et)

/-- The aligned (clamped) start row time is a multiple of the step. -/
theorem startRowTimeOf_isIntMul (v : SelVals) (st et : ℚ) (hs : 0 ≤ ((v.step : ℤ) : ℚ))
    (hlast : IsIntMul ((v.step : ℤ) : ℚ) v.lastRowTime)
    (hfirst : IsIntMul ((v.step : ℤ) : ℚ) v.firstRowTime) :
    IsIntMul ((v.step : ℤ) : ℚ) (startRowTimeOf v st et) :=
  IsIntMul.min hs (IsIntMul.max hs hfirst (isIntMul_align _ st))
    (endRowTimeOf_isIntMul v et hs hlast)

/-! ### Unfolding a successful call -/

/-- Anatomy of a successful `getData` call: the raw-argument range check was
false, the data source resolved, the selection loop produced an archive and
values, the file has a last archive, and the result record is assembled from
them exactly as in source lines 216-256. -/
theorem getData_ok_shape (q : RrdQuery) (st : ℚ) (et : JsTime) (dsId : Option DsId)
    (cfName : Option String) (r : FlotResult)
    (h : q.getData st et dsId cfName = .ok r) :
    et.geCheck st = false ∧
    ∃ dsRec rra v lastRra,
      q.rrd.getDS (dsId.getD (.byIndex 0)) = some dsRec ∧
      selectRRA (cfName.getD "AVERAGE") ((q.rrd.lastUpdate : ℤ) : ℚ) (st / 1000)
        q.rrd.rras none none = (some rra, some v) ∧
      q.rrd.rras.getLast? = some lastRra ∧
      r = { label := dsRec.name
            data := buildSeries rra v dsRec.idx (st / 1000) (effEndTime q.rrd et)
            unit := q.unit
            firstUpdated := ((q.rrd.lastUpdate : ℚ) -
              ((lastRra.rowCount : ℚ) - 1) * (lastRra.step : ℚ)) * 1000
            lastUpdated := (q.rrd.lastUpdate : ℚ) * 1000 } := by
  unfold RrdQuery.getData at h
  split at h
  · exact absurd h (by simp)
  next hge =>
    refine ⟨eq_false_of_ne_true hge, ?_⟩
    split at h
    · exact absurd h (by simp)
    next ds hds =>
      split at h
      next rra v hsel =>
        split at h
        · exact absurd h (by simp)
        next hstep =>
          split at h
          next lastRra hlast =>
            exact ⟨ds, rra, v, lastRra, hds, hsel, hlast, (Except.ok.injEq _ _ ▸ h).symm⟩
          · exact absurd h (by simp)
      next hpair =>
        exact absurd h (by simp)

/-! ### Properties of the sampling loop -/

/-- The row-index span equals the time span divided by the step. -/
theorem rowIndex_span (v : SelVals) (st et : ℚ) (hstep : (v.step : ℚ) ≠ 0) :
    endRowIndexOf v et - startRowIndexOf v st et
      = (endRowTimeOf v et - startRowTimeOf v st et) / (v.step : ℚ) := by
  unfold startRowIndexOf endRowIndexOf
  field_simp

/-- Consecutive samples of the series are exactly `step * 1000` apart
(and hence chronological when the step is nonnegative). -/
theorem buildSeries_chain (rra : RRA) (v : SelVals) (dsIdx : ℤ) (st et : ℚ)
    (hstep : (0 : ℚ) ≤ (v.step : ℚ)) :
    List.Chain' (fun p p' => p.1 ≤ p'.1 ∧ p'.1 = p.1 + (v.step : ℚ) * 1000)
      (buildSeries rra v dsIdx st et) := by
  unfold buildSeries
  rw [List.chain'_map]
  cases hn : sampleCount v st et with
  | zero => simp
  | succ n =>
    rw [List.chain'_range_succ]
    intro m _
    dsimp only
    refine ⟨?_, by push_cast; ring⟩
    have h1 : ((m : ℚ)) * (v.step : ℚ) ≤ ((m : ℚ) + 1) * (v.step : ℚ) := by
      apply mul_le_mul_of_nonneg_right _ hstep
      linarith
    push_cast
    nlinarith [h1]

/-- Every timestamp of the series lies in
`[startRowTime * 1000, endRowTime * 1000]`. -/
theorem buildSeries_bounds (rra : RRA) (v : SelVals) (dsIdx : ℤ) (st et : ℚ)
    (hstep : (0 : ℚ) < (v.step : ℚ)) :
    ∀ p ∈ buildSeries rra v dsIdx st et,
      startRowTimeOf v st et * 1000 ≤ p.1 ∧ p.1 ≤ endRowTimeOf v et * 1000 := by
  intro p hp
  unfold buildSeries at hp
  rcases List.mem_map.mp hp with ⟨k, hk, rfl⟩
  rw [List.mem_range] at hk
  dsimp only
  constructor
  · have h0 : (0 : ℚ) ≤ (k : ℚ) * (v.step : ℚ) := mul_nonneg (by positivity) hstep.le
    nlinarith [h0]
  · have hceil : (k : ℤ) < ⌈endRowIndexOf v et - startRowIndexOf v st et⌉ := by
      rw [sampleCount] at hk
      omega
    have hklt : ((k : ℚ)) < endRowIndexOf v et - startRowIndexOf v st et := by
      have h1 : ((k : ℚ)) + 1 ≤ ((⌈endRowIndexOf v et - startRowIndexOf v st et⌉ : ℤ) : ℚ) := by
        exact_mod_cast hceil
      have h2 := Int.ceil_lt_add_one (endRowIndexOf v et - startRowIndexOf v st et)
      linarith
    rw [rowIndex_span v st et hstep.ne.symm] at hklt
    have h3 : (k : ℚ) * (v.step : ℚ) < endRowTimeOf v et - startRowTimeOf v st et :=
      (lt_div_iff₀ hstep).mp hklt
    nlinarith [h3]

/-- The series has exactly `sampleCount` entries. -/
theorem buildSeries_length (rra : RRA) (v : SelVals) (dsIdx : ℤ) (st et : ℚ) :
    (buildSeries rra v dsIdx st et).length = sampleCount v st et := by
  simp [buildSeries]

/-- The k-th entry of the series is the cell at row `startRowIndex + k`
stamped `(startRowTime + k * step) * 1000`. -/
theorem buildSeries_get (rra : RRA) (v : SelVals) (dsIdx : ℤ) (st et : ℚ)
    (k : ℕ) (hk : k < (buildSeries rra v dsIdx st et).length) :
    (buildSeries rra v dsIdx st et).get ⟨k, hk⟩ =
      ((startRowTimeOf v st et + (k : ℚ) * (v.step : ℚ)) * 1000,
       rra.getEl (startRowIndexOf v st et + (k : ℚ)) dsIdx) := by
  simp [buildSeries, List.get_eq_getElem]

/-! ### Claim C3 -/

/-- C3 (amended): a RangeError naming both raw values is raised exactly when
`startTimeJs >= endTimeJs` compares true on the raw, pre-default arguments
(an omitted/undefined end time never fires the check, a null or `0` end time
compares as 0); in particular `query(file, 1000, 1000, 0, "AVERAGE")` fails.
No post-default check exists. -/
theorem rangeError_iff_raw_check :
    (∀ (q : RrdQuery) (st : ℚ) (et : JsTime) (dsId : Option DsId) (cfName : Option String),
      q.getData st et dsId cfName = .error (.rangeError st et) ↔ et.geCheck st = true) ∧
    mainQuery.getData 1000 (.num 1000) (some (.byIndex 0)) (some "AVERAGE")
      = .error (.rangeError 1000 (.num 1000)) := by
  constructor
  · intro q st et dsId cfName
    constructor
    · intro h
      by_contra hne
      unfold RrdQuery.getData at h
      rw [if_neg hne] at h
      split at h
      · simp at h
      · split at h
        · split at h
          · simp at h
          · split at h
            · simp at h
            · simp at h
        · simp at h
    · intro h
      unfold RrdQuery.getData
      rw [if_pos h]
  · unfold RrdQuery.getData
    norm_num [JsTime.geCheck]

/-- C3 counterexample: with an omitted end time the effective end defaults to
the quantized last update (1000 s); a start time of 2000 s is at or past that
end, yet `getData` returns an ok (empty) series instead of a RangeError. -/
theorem post_default_inversion_returns_ok :
    mainQuery.getData 2000000 .undef none none = .ok ⟨"ds0", [], "", 10000, 1000000⟩ ∧
    (mainFile.lastUpdate : ℚ) - jsMod (mainFile.lastUpdate : ℚ) (mainFile.minStep : ℚ)
      ≤ 2000000 / 1000 := by
  constructor
  · simp only [RrdQuery.getData, RrdFile.getDS, selectRRA, rraVals, effEndTime, endRowTimeOf,
      startRowTimeOf, startRowIndexOf, endRowIndexOf, sampleCount, buildSeries, jsMod, jsTrunc,
      JsTime.geCheck, JsTime.truthy, JsTime.toSeconds, mainFile, mainQuery, arcMain,
      Option.getD, List.find?, List.getLast?]
    norm_num
  · norm_num [mainFile, jsMod, jsTrunc]

/-! ### Claim C10 -/

/-- C10 (amended): a falsy end time that also passes the raw range check
behaves exactly like an omitted end time (the end defaults to
`lastUpdate - lastUpdate % minStep`); but an explicit end time of 0 (or null)
makes the initial check compare `startTimeJs >= 0`, so it is distinguishable
from an omitted end time whenever `startTimeJs >= 0`. -/
theorem falsy_end_equal_to_omitted (q : RrdQuery) (st : ℚ) (et : JsTime)
    (dsId : Option DsId) (cfName : Option String)
    (h1 : et.truthy = false) (h2 : et.geCheck st = false) :
    q.getData st et dsId cfName = q.getData st .undef dsId cfName := by
  unfold RrdQuery.getData effEndTime
  rw [h1, h2]
  rfl

/-- Witness for C10's amended theorem at a negative start time. -/
theorem falsy_end_equal_to_omitted_witness :
    mainQuery.getData (-5000) (.num 0) none none
      = mainQuery.getData (-5000) .undef none none :=
  falsy_end_equal_to_omitted mainQuery (-5000) (.num 0) none none
    (by simp [JsTime.truthy]) (by norm_num [JsTime.geCheck])

/-- C10 counterexample: with `startTimeJs = 1000000` an explicit end time 0
raises a RangeError while an omitted end time yields an ok result, so 0 is
not indistinguishable from omitting the end time. -/
theorem zero_end_not_omitted :
    mainQuery.getData 1000000 (.num 0) none none
      = .error (.rangeError 1000000 (.num 0)) ∧
    mainQuery.getData 1000000 .undef none none
      = .ok ⟨"ds0", [], "", 10000, 1000000⟩ := by
  constructor
  · unfold RrdQuery.getData
    norm_num [JsTime.geCheck]
  · simp only [RrdQuery.getData, RrdFile.getDS, selectRRA, rraVals, effEndTime, endRowTimeOf,
      startRowTimeOf, startRowIndexOf, endRowIndexOf, sampleCount, buildSeries, jsMod, jsTrunc,
      JsTime.geCheck, JsTime.truthy, JsTime.toSeconds, mainFile, mainQuery, arcMain,
      Option.getD, List.find?, List.getLast?]
    norm_num

/-! ### Claim C5 -/

/-- C5: for every successful query the result's `firstUpdated` equals
`(lastUpdate - (rowCount - 1) * step) * 1000` computed from the last archive
in the file's list, and `lastUpdated` equals `lastUpdate * 1000`, regardless
of the archive that served the series. -/
theorem result_bounds_from_last_archive (q : RrdQuery) (st : ℚ) (et : JsTime)
    (dsId : Option DsId) (cfName : Option String) (r : FlotResult) (lastRra : RRA)
    (h : q.getData st et dsId cfName = .ok r)
    (hl : q.rrd.rras.getLast? = some lastRra) :
    r.firstUpdated
      = ((q.rrd.lastUpdate : ℚ) - ((lastRra.rowCount : ℚ) - 1) * (lastRra.step : ℚ)) * 1000 ∧
    r.lastUpdated = (q.rrd.lastUpdate : ℚ) * 1000 := by
  obtain ⟨-, dsRec, rra, v, lastRra', -, -, hl', hr⟩ := getData_ok_shape q st et dsId cfName r h
  rw [hl] at hl'
  obtain rfl : lastRra = lastRra' := by injection hl'
  rw [hr]
  exact ⟨rfl, rfl⟩

/-- Witness for C5 on a one-row query against `mainFile`. -/
theorem result_bounds_from_last_archive_witness :
    (FlotResult.mk "ds0" [(990000, some 7)] "" 10000 1000000).firstUpdated
      = ((mainFile.lastUpdate : ℚ) - ((arcMain.rowCount : ℚ) - 1) * (arcMain.step : ℚ)) * 1000 ∧
    (FlotResult.mk "ds0" [(990000, some 7)] "" 10000 1000000).lastUpdated
      = (mainFile.lastUpdate : ℚ) * 1000 :=
  result_bounds_from_last_archive mainQuery 990000 .undef none none
    (FlotResult.mk "ds0" [(990000, some 7)] "" 10000 1000000) arcMain
    (by
      simp only [RrdQuery.getData, RrdFile.getDS, selectRRA, rraVals, effEndTime, endRowTimeOf,
        startRowTimeOf, startRowIndexOf, endRowIndexOf, sampleCount, buildSeries, jsMod, jsTrunc,
        JsTime.geCheck, JsTime.truthy, JsTime.toSeconds, mainFile, mainQuery, arcMain,
        Option.getD, List.find?, List.getLast?]
      norm_num [List.range_succ])
    rfl

/-! ### Claim C7 -/

/-- C7: for every accepted query, the computed
`startRowIndex = rowCount - (lastRowTime - startRowTime) / step` and
`endRowIndex = rowCount - (lastRowTime - endRowTime) / step` are integers;
all intermediate quantities are multiples of the step.  (Non-integrality is
unreachable, so the spec's fail-fast clause is vacuously satisfied.) -/
theorem rowIndices_integral (q : RrdQuery) (st : ℚ) (et : JsTime)
    (dsId : Option DsId) (cfName : Option String) (r : FlotResult) (rra : RRA) (v : SelVals)
    (h : q.getData st et dsId cfName = .ok r)
    (hsel : selectRRA (cfName.getD "AVERAGE") ((q.rrd.lastUpdate : ℤ) : ℚ) (st / 1000)
      q.rrd.rras none none = (some rra, some v)) :
    (∃ ms : ℤ, startRowIndexOf v (st / 1000) (effEndTime q.rrd et) = (ms : ℚ)) ∧
    (∃ me : ℤ, endRowIndexOf v (effEndTime q.rrd et) = (me : ℚ)) := by
  have hshape := selectRRA_vals_shape (cfName.getD "AVERAGE") ((q.rrd.lastUpdate : ℤ) : ℚ)
    (st / 1000) q.rrd.rras none none
  rw [hsel] at hshape
  rcases hshape with h0 | ⟨a, ha, hacf, h2⟩
  · simp at h0
  · obtain rfl : v = rraVals ((q.rrd.lastUpdate : ℤ) : ℚ) a := by
      injection h2
    have hs0 : (0 : ℚ) ≤ (((rraVals ((q.rrd.lastUpdate : ℤ) : ℚ) a).step : ℤ) : ℚ) := by
      have := a.stepPos
      show (0 : ℚ) ≤ ((a.step : ℤ) : ℚ)
      exact_mod_cast this.le
    have hsne : ((((rraVals ((q.rrd.lastUpdate : ℤ) : ℚ) a).step : ℤ)) : ℚ) ≠ 0 := by
      have := a.stepPos
      show ((a.step : ℤ) : ℚ) ≠ 0
      exact_mod_cast this.ne.symm
    obtain ⟨hlastm, hfirstm⟩ := rraVals_aligned ((q.rrd.lastUpdate : ℤ) : ℚ) a
    constructor
    · obtain ⟨m, hm⟩ := IsIntMul.div_int hsne
        (hlastm.sub (startRowTimeOf_isIntMul _ (st / 1000) (effEndTime q.rrd et)
          hs0 hlastm hfirstm))
      refine ⟨a.rowCount - m, ?_⟩
      unfold startRowIndexOf
      rw [hm]
      push_cast
      simp only [rraVals]
    · obtain ⟨m, hm⟩ := IsIntMul.div_int hsne
        (hlastm.sub (endRowTimeOf_isIntMul _ (effEndTime q.rrd et) hs0 hlastm))
      refine ⟨a.rowCount - m, ?_⟩
      unfold endRowIndexOf
      rw [hm]
      push_cast
      simp only [rraVals]

/-- Witness for C7 on a one-row query against `mainFile`. -/
theorem rowIndices_integral_witness :
    (∃ ms : ℤ, startRowIndexOf ⟨10, 100, 1000, 0⟩ (990000 / 1000)
      (effEndTime mainQuery.rrd .undef) = (ms : ℚ)) ∧
    (∃ me : ℤ, endRowIndexOf ⟨10, 100, 1000, 0⟩ (effEndTime mainQuery.rrd .undef) = (me : ℚ)) :=
  rowIndices_integral mainQuery 990000 .undef none none
    (FlotResult.mk "ds0" [(990000, some 7)] "" 10000 1000000) arcMain ⟨10, 100, 1000, 0⟩
    (by
      simp only [RrdQuery.getData, RrdFile.getDS, selectRRA, rraVals, effEndTime, endRowTimeOf,
        startRowTimeOf, startRowIndexOf, endRowIndexOf, sampleCount, buildSeries, jsMod, jsTrunc,
        JsTime.geCheck, JsTime.truthy, JsTime.toSeconds, mainFile, mainQuery, arcMain,
        Option.getD, List.find?, List.getLast?]
      norm_num [List.range_succ])
    (by
      simp only [selectRRA, rraVals, mainQuery, mainFile, arcMain, Option.getD, jsMod, jsTrunc]
      norm_num)

/-! ### Claim C4 -/

/-- C4: when no archive matches the requested consolidation function (and the
call survives the earlier range check and data-source lookup), `getData`
fails with a type error naming the requested function; and whenever at least
one archive does match, no such error is raised — lack of coverage alone
never triggers it. -/
theorem cf_error_iff_no_match (q : RrdQuery) (st : ℚ) (et : JsTime)
    (dsId : Option DsId) (cfName : Option String) (dsRec : DS)
    (hge : et.geCheck st = false)
    (hds : q.rrd.getDS (dsId.getD (.byIndex 0)) = some dsRec) :
    ((∀ a ∈ q.rrd.rras, a.cfName ≠ cfName.getD "AVERAGE") →
        q.getData st et dsId cfName = .error (.cfTypeError (cfName.getD "AVERAGE"))) ∧
    ((∃ a ∈ q.rrd.rras, a.cfName = cfName.getD "AVERAGE") →
        ∀ s, q.getData st et dsId cfName ≠ .error (.cfTypeError s)) := by
  constructor
  · intro hno
    have hnone : (selectRRA (cfName.getD "AVERAGE") ((q.rrd.lastUpdate : ℤ) : ℚ) (st / 1000)
        q.rrd.rras none none).2 = none := by
      rcases selectRRA_vals_shape (cfName.getD "AVERAGE") ((q.rrd.lastUpdate : ℤ) : ℚ)
        (st / 1000) q.rrd.rras none none with h0 | ⟨a, ha, hacf, _⟩
      · exact h0
      · exact absurd hacf (hno a ha)
    unfold RrdQuery.getData
    rcases hp : selectRRA (cfName.getD "AVERAGE") ((q.rrd.lastUpdate : ℤ) : ℚ) (st / 1000)
        q.rrd.rras none none with ⟨p1, p2⟩
    rw [hp] at hnone
    simp only at hnone
    subst hnone
    simp only [hge, Bool.false_eq_true, if_false, hds, hp]
  · intro hmatch s hEq
    have hsome := selectRRA_vals_isSome_of_match (cfName.getD "AVERAGE")
      ((q.rrd.lastUpdate : ℤ) : ℚ) (st / 1000) q.rrd.rras none none hmatch
    rcases hp : selectRRA (cfName.getD "AVERAGE") ((q.rrd.lastUpdate : ℤ) : ℚ) (st / 1000)
        q.rrd.rras none none with ⟨p1, p2⟩
    rw [hp] at hsome
    simp only at hsome
    cases p1 with
    | none =>
      have h0 : (selectRRA (cfName.getD "AVERAGE") ((q.rrd.lastUpdate : ℤ) : ℚ) (st / 1000)
          q.rrd.rras none none).1 = none := by rw [hp]
      obtain ⟨hnil, -⟩ := selectRRA_fst_none _ _ _ _ _ _ h0
      rcases hmatch with ⟨a, ha, -⟩
      rw [hnil] at ha
      simp at ha
    | some rra =>
      have hshape := selectRRA_vals_shape (cfName.getD "AVERAGE") ((q.rrd.lastUpdate : ℤ) : ℚ)
        (st / 1000) q.rrd.rras none none
      rw [hp] at hshape
      rcases hshape with h0 | ⟨a, ha, hacf, h2⟩
      · simp only at h0
        rw [h0] at hsome
        simp at hsome
      · simp only at h2
        have hne : q.rrd.rras ≠ [] := by
          rcases hmatch with ⟨b, hb, -⟩
          exact List.ne_nil_of_mem hb
        obtain ⟨lastRra, hlast⟩ : ∃ la, q.rrd.rras.getLast? = some la := by
          cases hgl : q.rrd.rras.getLast? with
          | none => exact absurd (List.getLast?_eq_none_iff.mp hgl) hne
          | some la => exact ⟨la, rfl⟩
        unfold RrdQuery.getData at hEq
        simp only [hge, Bool.false_eq_true, if_false, hds, hp, h2] at hEq
        have hstep : ¬(rraVals ((q.rrd.lastUpdate : ℤ) : ℚ) a).step = 0 := by
          have := a.stepPos
          show ¬a.step = 0
          omega
        rw [if_neg hstep, hlast] at hEq
        simp at hEq

/-- Witness for C4: requesting the consolidation function BOGUS against
`mainFile` (whose only archive uses AVERAGE) raises the type error naming
BOGUS. -/
theorem cf_error_iff_no_match_witness :
    mainQuery.getData 500000 .undef none (some "BOGUS") = .error (.cfTypeError "BOGUS") :=
  (cf_error_iff_no_match mainQuery 500000 .undef none (some "BOGUS") (DS.mk "ds0" 0)
    rfl
    (by simp [mainQuery, mainFile, RrdFile.getDS, List.find?])).1
    (by
      intro a ha
      rcases List.mem_cons.mp ha with rfl | h2
      · simp [arcMain]
      · simp at h2)

/-! ### Claims C2 and C6 -/

/-- The values selected by a successful call come from a matching archive, so
the selected step is positive. -/
theorem selected_step_pos (q : RrdQuery) (st : ℚ) (cfName : Option String)
    (rra : RRA) (v : SelVals)
    (hsel : selectRRA (cfName.getD "AVERAGE") ((q.rrd.lastUpdate : ℤ) : ℚ) (st / 1000)
      q.rrd.rras none none = (some rra, some v)) :
    (0 : ℚ) < (v.step : ℚ) := by
  have hshape := selectRRA_vals_shape (cfName.getD "AVERAGE") ((q.rrd.lastUpdate : ℤ) : ℚ)
    (st / 1000) q.rrd.rras none none
  rw [hsel] at hshape
  rcases hshape with h0 | ⟨a, -, -, h2⟩
  · simp at h0
  · obtain rfl : v = rraVals ((q.rrd.lastUpdate : ℤ) : ℚ) a := by injection h2
    have := a.stepPos
    show (0 : ℚ) < ((a.step : ℤ) : ℚ)
    exact_mod_cast this

/-- C2: for every query that `getData` completes without error, the returned
series is chronological, consecutive samples differ by exactly the selected
archive's step times 1000 ms, and every timestamp lies inside
`[startRowTime, endRowTime]` scaled to milliseconds. -/
theorem series_spacing_and_bounds (q : RrdQuery) (st : ℚ) (et : JsTime)
    (dsId : Option DsId) (cfName : Option String) (r : FlotResult) (rra : RRA) (v : SelVals)
    (h : q.getData st et dsId cfName = .ok r)
    (hsel : selectRRA (cfName.getD "AVERAGE") ((q.rrd.lastUpdate : ℤ) : ℚ) (st / 1000)
      q.rrd.rras none none = (some rra, some v)) :
    List.Chain' (fun p p' => p.1 ≤ p'.1 ∧ p'.1 = p.1 + (v.step : ℚ) * 1000) r.data ∧
    ∀ p ∈ r.data,
      startRowTimeOf v (st / 1000) (effEndTime q.rrd et) * 1000 ≤ p.1 ∧
      p.1 ≤ endRowTimeOf v (effEndTime q.rrd et) * 1000 := by
  have hstep := selected_step_pos q st cfName rra v hsel
  obtain ⟨-, dsRec, rra', v', lastRra, -, hsel', -, hr⟩ := getData_ok_shape q st et dsId cfName r h
  rw [hsel] at hsel'
  injection hsel' with ha hb
  obtain rfl : rra = rra' := by injection ha
  obtain rfl : v = v' := by injection hb
  subst hr
  exact ⟨buildSeries_chain rra v dsRec.idx (st / 1000) (effEndTime q.rrd et) hstep.le,
    buildSeries_bounds rra v dsRec.idx (st / 1000) (effEndTime q.rrd et) hstep⟩

/-- Witness for C2 on a one-row query against `mainFile`. -/
theorem series_spacing_and_bounds_witness :
    List.Chain'
      (fun p p' => p.1 ≤ p'.1 ∧ p'.1 = p.1 + (((SelVals.mk 10 100 1000 0).step : ℤ) : ℚ) * 1000)
      (FlotResult.mk "ds0" [(990000, some 7)] "" 10000 1000000).data ∧
    ∀ p ∈ (FlotResult.mk "ds0" [(990000, some 7)] "" 10000 1000000).data,
      startRowTimeOf ⟨10, 100, 1000, 0⟩ (990000 / 1000) (effEndTime mainQuery.rrd .undef) * 1000
        ≤ p.1 ∧
      p.1 ≤ endRowTimeOf ⟨10, 100, 1000, 0⟩ (effEndTime mainQuery.rrd .undef) * 1000 :=
  series_spacing_and_bounds mainQuery 990000 .undef none none
    (FlotResult.mk "ds0" [(990000, some 7)] "" 10000 1000000) arcMain ⟨10, 100, 1000, 0⟩
    (by
      simp only [RrdQuery.getData, RrdFile.getDS, selectRRA, rraVals, effEndTime, endRowTimeOf,
        startRowTimeOf, startRowIndexOf, endRowIndexOf, sampleCount, buildSeries, jsMod, jsTrunc,
        JsTime.geCheck, JsTime.truthy, JsTime.toSeconds, mainFile, mainQuery, arcMain,
        Option.getD, List.find?, List.getLast?]
      norm_num [List.range_succ])
    (by
      simp only [selectRRA, rraVals, mainQuery, mainFile, arcMain, Option.getD, jsMod, jsTrunc]
      norm_num)

/-- C6: for every accepted query the series has exactly one entry per row
index in `[startRowIndex, endRowIndex)`, in ascending order; the k-th entry
is the pair `[(startRowTime + k * step) * 1000, getEl (startRowIndex + k)]`,
with the cell value (including the `none` no-data sentinel) passed through
verbatim, never skipped. -/
theorem series_rows_exact (q : RrdQuery) (st : ℚ) (et : JsTime)
    (dsId : Option DsId) (cfName : Option String) (r : FlotResult) (dsRec : DS)
    (rra : RRA) (v : SelVals)
    (h : q.getData st et dsId cfName = .ok r)
    (hds : q.rrd.getDS (dsId.getD (.byIndex 0)) = some dsRec)
    (hsel : selectRRA (cfName.getD "AVERAGE") ((q.rrd.lastUpdate : ℤ) : ℚ) (st / 1000)
      q.rrd.rras none none = (some rra, some v)) :
    r.data.length = sampleCount v (st / 1000) (effEndTime q.rrd et) ∧
    ∀ k (hk : k < r.data.length),
      r.data.get ⟨k, hk⟩ =
        ((startRowTimeOf v (st / 1000) (effEndTime q.rrd et) + (k : ℚ) * (v.step : ℚ)) * 1000,
         rra.getEl (startRowIndexOf v (st / 1000) (effEndTime q.rrd et) + (k : ℚ)) dsRec.idx) := by
  obtain ⟨-, dsRec', rra', v', lastRra, hds', hsel', -, hr⟩ :=
    getData_ok_shape q st et dsId cfName r h
  rw [hds] at hds'
  obtain rfl : dsRec = dsRec' := by injection hds'
  rw [hsel] at hsel'
  injection hsel' with ha hb
  obtain rfl : rra = rra' := by injection ha
  obtain rfl : v = v' := by injection hb
  subst hr
  exact ⟨buildSeries_length rra v dsRec.idx (st / 1000) (effEndTime q.rrd et),
    fun k hk => buildSeries_get rra v dsRec.idx (st / 1000) (effEndTime q.rrd et) k hk⟩

/-- Witness for C6 on a one-row query against `mainFile`. -/
theorem series_rows_exact_witness :
    (FlotResult.mk "ds0" [(990000, some 7)] "" 10000 1000000).data.length
      = sampleCount ⟨10, 100, 1000, 0⟩ (990000 / 1000) (effEndTime mainQuery.rrd .undef) ∧
    (FlotResult.mk "ds0" [(990000, some 7)] "" 10000 1000000).data.get ⟨0, by norm_num⟩
      = ((startRowTimeOf ⟨10, 100, 1000, 0⟩ (990000 / 1000) (effEndTime mainQuery.rrd .undef)
            + ((0 : ℕ) : ℚ) * (((10 : ℤ)) : ℚ)) * 1000,
         arcMain.getEl (startRowIndexOf ⟨10, 100, 1000, 0⟩ (990000 / 1000)
            (effEndTime mainQuery.rrd .undef) + ((0 : ℕ) : ℚ)) (DS.mk "ds0" 0).idx) := by
  have hmain := series_rows_exact mainQuery 990000 .undef none none
    (FlotResult.mk "ds0" [(990000, some 7)] "" 10000 1000000) (DS.mk "ds0" 0) arcMain
    ⟨10, 100, 1000, 0⟩
    (by
      simp only [RrdQuery.getData, RrdFile.getDS, selectRRA, rraVals, effEndTime, endRowTimeOf,
        startRowTimeOf, startRowIndexOf, endRowIndexOf, sampleCount, buildSeries, jsMod, jsTrunc,
        JsTime.geCheck, JsTime.truthy, JsTime.toSeconds, mainFile, mainQuery, arcMain,
        Option.getD, List.find?, List.getLast?]
      norm_num [List.range_succ])
    (by simp [mainQuery, mainFile, RrdFile.getDS, List.find?])
    (by
      simp only [selectRRA, rraVals, mainQuery, mainFile, arcMain, Option.getD, jsMod, jsTrunc]
      norm_num)
  exact ⟨hmain.1, hmain.2 0 (by norm_num)⟩

/-! ### Claim C1 -/

/-- C1 (amended): the loop selects the first archive in file order that both
matches the consolidation function and whose coverage floor `firstRowTime`
is at or before the start time; if at least one archive matches but none
covers, the loop's step/rowCount/row-times come from the last matching
archive while the archive variable (whose `getEl` serves the samples) is the
last archive of the file regardless of its consolidation function. -/
theorem archive_selection_characterization (cf : String) (lu st : ℚ) (l : List RRA) :
    (∀ a₀, l.find? (fun a => a.cfName == cf && decide ((rraVals lu a).firstRowTime ≤ st))
        = some a₀ →
      selectRRA cf lu st l none none = (some a₀, some (rraVals lu a₀))) ∧
    ((∀ a ∈ l, a.cfName = cf → ¬(rraVals lu a).firstRowTime ≤ st) →
      selectRRA cf lu st l none none =
        (l.getLast?,
         ((l.filter (fun a => a.cfName == cf)).getLast?).map (fun a => rraVals lu a))) := by
  constructor
  · intro a₀ hfind
    exact selectRRA_find cf lu st l none none a₀ hfind
  · intro hno
    have h1 : ∀ (o : Option RRA), o.elim (none : Option RRA) some = o := by
      intro o
      cases o <;> rfl
    have h2 : ∀ (o : Option RRA),
        o.elim (none : Option SelVals) (fun a => some (rraVals lu a))
          = o.map (fun a => rraVals lu a) := by
      intro o
      cases o <;> rfl
    rw [selectRRA_fallback cf lu st l none none hno, h1, h2]

/-- Witness for C1's amended theorem: the break case on `mainFile`'s archive
list and the fallback case on `fallbackFile`'s. -/
theorem archive_selection_characterization_witness :
    selectRRA "AVERAGE" 1000 500 [arcMain] none none
      = (some arcMain, some (rraVals 1000 arcMain)) ∧
    selectRRA "AVERAGE" 1000 100 [arcShort, arcMax] none none
      = ([arcShort, arcMax].getLast?,
         (([arcShort, arcMax].filter (fun a => a.cfName == "AVERAGE")).getLast?).map
           (fun a => rraVals 1000 a)) :=
  ⟨(archive_selection_characterization "AVERAGE" 1000 500 [arcMain]).1 arcMain
    (by
      simp [List.find?, arcMain, rraVals, jsMod, jsTrunc]
      norm_num),
   (archive_selection_characterization "AVERAGE" 1000 100 [arcShort, arcMax]).2
    (by
      intro a ha hcf
      rcases List.mem_cons.mp ha with rfl | ha2
      · norm_num [rraVals, arcShort, jsMod, jsTrunc]
      · rcases List.mem_cons.mp ha2 with rfl | h3
        · exact absurd hcf (by simp [arcMax])
        · simp at h3)⟩

/-- C1 counterexample: on `fallbackFile` (AVERAGE archive too short, last
archive MAX) the fallback returns the MAX archive as the cell source — not
the last matching AVERAGE archive — while the step/row values come from the
AVERAGE archive; the served sample value 2 is `arcMax`'s cell, not
`arcShort`'s value 1. -/
theorem fallback_uses_last_archive_not_last_matching :
    selectRRA "AVERAGE" 1000 100 [arcShort, arcMax] none none
      = (some arcMax, some (rraVals 1000 arcShort)) ∧
    arcMax.cfName ≠ "AVERAGE" ∧
    fallbackQuery.getData 100000 (.num 1000000) none none
      = .ok ⟨"ds0", [(990000, some 2)], "", 920000, 1000000⟩ ∧
    arcShort.getEl 0 0 = some 1 := by
  refine ⟨?_, by simp [arcMax], ?_, rfl⟩
  · simp [selectRRA, rraVals, arcShort, arcMax, jsMod, jsTrunc]
    norm_num
  · simp [RrdQuery.getData, RrdFile.getDS, selectRRA, rraVals, effEndTime, endRowTimeOf,
      startRowTimeOf, startRowIndexOf, endRowIndexOf, sampleCount, buildSeries, jsMod, jsTrunc,
      JsTime.geCheck, JsTime.truthy, JsTime.toSeconds, fallbackFile, fallbackQuery,
      arcShort, arcMax]
    norm_num [List.range_succ]

/-! ### Claim C9 -/

/-- C9 counterexample: a successful `getData` call changes the module-global
variable `firstUpdated` (assigned without `var` at source line 252), so the
call is not free of effects on all other state. -/
theorem getData_writes_global_firstUpdated :
    getDataGlobalFirstUpdated mainQuery 990000 .undef none none none = some 10 ∧
    some (10 : ℚ) ≠ (none : Option ℚ) := by
  refine ⟨?_, by simp⟩
  unfold getDataGlobalFirstUpdated
  rw [show mainQuery.getData 990000 .undef none none
      = .ok ⟨"ds0", [(990000, some 7)], "", 10000, 1000000⟩ from by
    simp only [RrdQuery.getData, RrdFile.getDS, selectRRA, rraVals, effEndTime, endRowTimeOf,
      startRowTimeOf, startRowIndexOf, endRowIndexOf, sampleCount, buildSeries, jsMod, jsTrunc,
      JsTime.geCheck, JsTime.truthy, JsTime.toSeconds, mainFile, mainQuery, arcMain,
      Option.getD, List.find?, List.getLast?]
    norm_num [List.range_succ]]
  norm_num

/-- C9 (amended): `getData` mutates neither the `RrdQuery` nor the `RrdFile`
(both are read-only in the embedding, matching the source: the method body
assigns none of `this`'s fields) and keeps no state between calls, but each
successful call assigns the module-global `firstUpdated` the file-level
first-updated time in seconds, while failing calls leave it unchanged. -/
theorem getData_global_effect (q : RrdQuery) (st : ℚ) (et : JsTime)
    (dsId : Option DsId) (cfName : Option String) (g : Option ℚ) :
    (getDataGlobalFirstUpdated q st et dsId cfName g = g ∧
      ∃ e, q.getData st et dsId cfName = .error e) ∨
    (∃ r lastRra, q.getData st et dsId cfName = .ok r ∧
      q.rrd.rras.getLast? = some lastRra ∧
      getDataGlobalFirstUpdated q st et dsId cfName g =
        some ((q.rrd.lastUpdate : ℚ) - ((lastRra.rowCount : ℚ) - 1) * (lastRra.step : ℚ))) := by
  cases hres : q.getData st et dsId cfName with
  | error e =>
    left
    refine ⟨?_, e, rfl⟩
    unfold getDataGlobalFirstUpdated
    rw [hres]
  | ok r =>
    right
    obtain ⟨-, dsRec, rra, v, lastRra, -, -, hlast, hr⟩ :=
      getData_ok_shape q st et dsId cfName r hres
    refine ⟨r, lastRra, rfl, hlast, ?_⟩
    unfold getDataGlobalFirstUpdated
    rw [hres, hr]
    simp only
    congr 1
    ring

/-! ### Claim C8 -/

/-- C8 failing trace: on a fresh `jarmon.RrdQueryRemote` (lastUpdate 0), a
`getData` with end time 1000 ms starts download 0; a second `getData` issued
while that download is still outstanding (no completion in between) starts a
second download, because `getData` nulls `this._download` whenever
`this.lastUpdate < endTime/1000` without checking whether the deferred has
fired.  This contradicts the comment at source lines 292-293 and the guard
`this._download.fired > -1` of the older jrrd.js implementation. -/
theorem duplicate_download_while_outstanding :
    (remoteGetData initRemote 1000).started = 1 ∧
    (remoteGetData initRemote 1000).download = some 0 ∧
    (remoteGetData (remoteGetData initRemote 1000) 1000).started = 2 := by
  refine ⟨?_, ?_, ?_⟩ <;> norm_num [remoteGetData, callRemote, initRemote]

/-- The older jrrd.js implementation does satisfy the coalescing policy:
while the attached download has not fired, a further `getData` leaves the
state unchanged — no new download starts. -/
theorem jrrd_coalesces_while_outstanding (s : JrrdState) (endTime : ℚ) (d : ℕ × Bool)
    (hd : s.download = some d) (hfired : d.2 = false) :
    jrrdRemoteGetData s endTime = s := by
  unfold jrrdRemoteGetData
  rw [hd]
  dsimp only
  rw [if_neg (by simp [hfired])]

end Jarmon
